import Mathlib

/-!
Verification development for the gotetra phase-sheet reader
(`src/io/gotetra.go` of the shellfish repository).

The Go source is shallowly embedded as executable Lean definitions:

* machine integers (`int32`, `int64`, Go `int`) are modelled as `Int`;
  byte-level decoding is explicit base-256 arithmetic on `Nat` bytes;
* `float32`/`float64` values are modelled as exact rationals (`ℚ`); the
  IEEE bit patterns of finite floats are decoded exactly, and the
  floating-point arithmetic inside `CellBounds` is idealised to exact
  rational arithmetic (non-finite patterns, which no theorem exercises,
  are mapped to 0);
* a file is a byte list, a file system maps paths to optional contents
  (`none` models an open failure), and a file handle is contents plus a
  position; `Seek` with whence 0 to a non-negative offset and `Close` on
  a valid descriptor are modelled as infallible;
* Go error returns are `Outcome.err` (with the spec's `IOError` /
  `FormatError` split), Go `panic` is `Outcome.panicked`;
* the mutation of caller-supplied buffers and of the `GotetraBuffer`
  struct is modelled by returning the new contents alongside the result;
* to reason about descriptor hygiene, the two top-level readers also
  report how many handles they opened and how many they closed
  (`RunStats`).
-/

/-- Go error values, split along the spec's taxonomy: `ioError` for
open/seek/read file-system failures, `formatError` for the
`fmt.Errorf` structural-validation failures. -/
inductive Err where
  | ioError : String → Err
  | formatError : String → Err
deriving DecidableEq

/-- Result of running a piece of Go code that can return an error or
panic.  `panicked` models Go `panic` (a fatal, non-recoverable abort). -/
inductive Outcome (α : Type) where
  | ok : α → Outcome α
  | err : Err → Outcome α
  | panicked : String → Outcome α
deriving DecidableEq

/-- `binary.ByteOrder`: the two byte orders used by the format. -/
inductive ByteOrder where
  | little
  | big
deriving DecidableEq

/-- Little-endian value of a byte list (bytes taken mod 256). -/
def wordOfBytesLE : List Nat → Nat
  | [] => 0
  | b :: bs => b % 256 + 256 * wordOfBytesLE bs

/-- Unsigned value of a byte list in the given byte order. -/
def decodeWord (order : ByteOrder) (bs : List Nat) : Nat :=
  match order with
  | .little => wordOfBytesLE bs
  | .big => wordOfBytesLE bs.reverse

/-- Two's-complement reading of a 32-bit word. -/
def toSigned32 (w : Nat) : Int :=
  if w < 2147483648 then (w : Int) else (w : Int) - 4294967296

/-- Two's-complement reading of a 64-bit word. -/
def toSigned64 (w : Nat) : Int :=
  if w < 9223372036854775808 then (w : Int) else (w : Int) - 18446744073709551616

/-- `int32` read from 4 bytes in the given byte order. -/
def decodeInt32 (order : ByteOrder) (bs : List Nat) : Int :=
  toSigned32 (decodeWord order bs)

/-- `int64` read from 8 bytes in the given byte order. -/
def decodeInt64 (order : ByteOrder) (bs : List Nat) : Int :=
  toSigned64 (decodeWord order bs)

/-- Exact rational value of a finite IEEE-754 single-precision bit
pattern (non-finite patterns map to 0; ±0 is short-circuited so that
witness evaluation never needs rational division in the kernel). -/
def decodeF32 (w : Nat) : ℚ :=
  if w % 2147483648 = 0 then 0
  else
    let s := w / 2147483648 % 2
    let e := w / 8388608 % 256
    let m := w % 8388608
    if e = 255 then 0
    else
      let mag : ℚ :=
        if e = 0 then (m : ℚ) / (2 : ℚ) ^ (149 : Nat)
        else ((8388608 + m : Nat) : ℚ) * (2 : ℚ) ^ e / (2 : ℚ) ^ (150 : Nat)
      if s = 1 then -mag else mag

/-- Exact rational value of a finite IEEE-754 double-precision bit
pattern (non-finite patterns map to 0; ±0 short-circuited). -/
def decodeF64 (w : Nat) : ℚ :=
  if w % 9223372036854775808 = 0 then 0
  else
    let s := w / 9223372036854775808 % 2
    let e := w / 4503599627370496 % 2048
    let m := w % 4503599627370496
    if e = 2047 then 0
    else
      let mag : ℚ :=
        if e = 0 then (m : ℚ) / (2 : ℚ) ^ (1074 : Nat)
        else ((4503599627370496 + m : Nat) : ℚ) * (2 : ℚ) ^ e / (2 : ℚ) ^ (1075 : Nat)
      if s = 1 then -mag else mag

/-- A `[3]float32` vector of the payload.  Only the identity of the
stored values matters to the claims, so each component is kept as its
32-bit pattern. -/
def Vec3 : Type := Nat × Nat × Nat
deriving DecidableEq

/-- The model of a file system: contents per path, `none` = open fails. -/
def FS : Type := String → Option (List Nat)

/-- An open file descriptor: contents plus current position. -/
structure Fd where
  content : List Nat
  pos : Nat
deriving DecidableEq

/-- `os.OpenFile(file, os.O_RDONLY, os.ModePerm)`. -/
def openFile (fs : FS) (path : String) : Except Err Fd :=
  match fs path with
  | some bs => .ok ⟨bs, 0⟩
  | none => .error (.ioError ("open " ++ path ++ ": no such file or directory"))

/-- Read `n` bytes at the current position, advancing it; a short read
is the I/O error `binary.Read`/`ReadFull` would report. -/
def Fd.readBytes (f : Fd) (n : Nat) : Except Err (List Nat × Fd) :=
  if f.pos + n ≤ f.content.length then
    .ok ((f.content.drop f.pos).take n, ⟨f.content, f.pos + n⟩)
  else .error (.ioError "unexpected EOF")

/-- `f.Seek(off, 0)`: absolute seek, infallible on a regular file. -/
def Fd.seek (f : Fd) (off : Nat) : Fd := ⟨f.content, off⟩

/-- `f.Close()`: infallible on a valid descriptor in this model. -/
def Fd.close (_f : Fd) : Except Err Unit := .ok ()

/-- Modelled from the spec: the repository helper `readInt32` (outside
`src/`) reads one little- or big-endian `int32` at the current position;
per §4.1/§7 a read failure is an `IOError` surfaced to the caller. -/
def readInt32 (f : Fd) (order : ByteOrder) : Except Err (Int × Fd) :=
  match f.readBytes 4 with
  | .error e => .error e
  | .ok (bs, f') => .ok (decodeInt32 order bs, f')

/-- Decode `n` consecutive `(x, y, z)` float32 triples (kept as bit
patterns) in the given byte order. -/
def decodeVectors (order : ByteOrder) : Nat → List Nat → List Vec3
  | 0, _ => []
  | n + 1, bs =>
    (decodeWord order (bs.take 4),
     decodeWord order ((bs.drop 4).take 4),
     decodeWord order ((bs.drop 8).take 4)) :: decodeVectors order n (bs.drop 12)

/-- Modelled from the spec: the repository helper `readVecAsByte`
(outside `src/`) fills the target slice with `n` vectors read in the
given byte order; per §7 it either fully populates the target or fails
with an `IOError` without partial writes. -/
def readVecAsByte (f : Fd) (order : ByteOrder) (n : Nat) :
    Except Err (List Vec3 × Fd) :=
  match f.readBytes (12 * n) with
  | .error e => .error e
  | .ok (bs, f') => .ok (decodeVectors order n bs, f')

/-- Modelled from the spec: `CosmologyHeader` (outside `src/`) is an
opaque fixed-size sub-record that this reader copies verbatim and never
interprets; it is kept as its raw bytes. -/
structure CosmologyHeader where
  blob : List Nat
deriving DecidableEq

/-- Modelled from the spec: the fixed byte size of `CosmologyHeader`.
The source outside `src/` fixes it; 32 bytes (four `float64` fields) is
used as the concrete constant.  All size-check theorems are stated
relative to `rawGotetraHeaderSize`, not to this number. -/
def cosmologyHeaderSize : Nat := 32

/-- `RawGotetraHeader`: the on-disk header record, field for field in
file order.  Integer fields are `Int`, float fields are their exact
rational values. -/
structure RawGotetraHeader where
  Cosmo : CosmologyHeader
  Count : Int
  CountWidth : Int
  SegmentWidth : Int
  GridWidth : Int
  GridCount : Int
  Idx : Int
  Cells : Int
  Mass : ℚ
  TotalWidth : ℚ
  Origin : ℚ × ℚ × ℚ
  Width : ℚ × ℚ × ℚ
  VelocityOrigin : ℚ × ℚ × ℚ
  VelocityWidth : ℚ × ℚ × ℚ
deriving DecidableEq

/-- `unsafe.Sizeof(RawGotetraHeader{})`: the natural sequential layout
size — the cosmology blob, seven `int64`, two `float64` and four
`[3]float32` fields, with no padding. -/
def rawGotetraHeaderSize : Nat := cosmologyHeaderSize + 7 * 8 + 2 * 8 + 4 * 12

/-- `GotetraHeader`: the raw header (Go struct embedding) plus the
derived field `N` (and the write-guard, modelled as `Unit`). -/
structure GotetraHeader extends RawGotetraHeader where
  N : Int
  guard : Unit
deriving DecidableEq

/-- `RawGotetraHeader.Postprocess`: copies the raw header into the full
header and derives `Count = CountWidth³` (overwriting the stored
`Count`) and `N = SegmentWidth³`. -/
def RawGotetraHeader.Postprocess (raw : RawGotetraHeader) : GotetraHeader :=
  { toRawGotetraHeader :=
      { raw with Count := raw.CountWidth * raw.CountWidth * raw.CountWidth },
    N := raw.SegmentWidth * raw.SegmentWidth * raw.SegmentWidth,
    guard := () }

/-- `int64` field at byte offset `off` of the header block. -/
def i64At (order : ByteOrder) (bs : List Nat) (off : Nat) : Int :=
  decodeInt64 order ((bs.drop off).take 8)

/-- `float64` field at byte offset `off` of the header block. -/
def f64At (order : ByteOrder) (bs : List Nat) (off : Nat) : ℚ :=
  decodeF64 (decodeWord order ((bs.drop off).take 8))

/-- `float32` field at byte offset `off` of the header block. -/
def f32At (order : ByteOrder) (bs : List Nat) (off : Nat) : ℚ :=
  decodeF32 (decodeWord order ((bs.drop off).take 4))

/-- `[3]float32` field at byte offset `off` of the header block. -/
def vec3qAt (order : ByteOrder) (bs : List Nat) (off : Nat) : ℚ × ℚ × ℚ :=
  (f32At order bs off, f32At order bs (off + 4), f32At order bs (off + 8))

/-- `binary.Read(f, order, &hdBuf.RawGotetraHeader)`: sequential
field-by-field decode of the raw header from its byte block, in §3
field order at the layout offsets. -/
def decodeRawGotetraHeader (order : ByteOrder) (bs : List Nat) :
    RawGotetraHeader :=
  { Cosmo := ⟨bs.take cosmologyHeaderSize⟩
    Count := i64At order bs 32
    CountWidth := i64At order bs 40
    SegmentWidth := i64At order bs 48
    GridWidth := i64At order bs 56
    GridCount := i64At order bs 64
    Idx := i64At order bs 72
    Cells := i64At order bs 80
    Mass := f64At order bs 88
    TotalWidth := f64At order bs 96
    Origin := vec3qAt order bs 104
    Width := vec3qAt order bs 116
    VelocityOrigin := vec3qAt order bs 128
    VelocityWidth := vec3qAt order bs 140 }

/-- `endianness`: maps the leading flag to a byte order; flag `0` is
little endian, `-1` is big endian, anything else panics. -/
def endianness (flag : Int) : Outcome ByteOrder :=
  if flag = 0 then .ok .little
  else if flag = -1 then .ok .big
  else .panicked "Unrecognized endianness flag."

/-- The `FormatError` message for a wrong declared header size
(`fmt.Errorf("Expected catalog.SheetHeader size of %d, found %d.", ...)`). -/
def sizeErrMsg (found : Int) : String :=
  "Expected catalog.SheetHeader size of " ++ toString rawGotetraHeaderSize ++
    ", found " ++ toString found ++ "."

/-- Handle accounting for one top-level read: how many descriptors the
call opened and how many it closed before returning. -/
structure RunStats where
  handlesOpened : Nat
  handlesClosed : Nat
deriving DecidableEq

/-- `readSheetHeaderAt`: opens the file, reads the endianness flag in a
fixed reference order, validates the declared header size, seeks to
offset 8 and decodes the raw header; on success it returns the
still-open handle positioned after the header, the detected order and
the post-processed header.  It closes nothing itself (error paths
included). -/
def readSheetHeaderAt (fs : FS) (file : String) :
    Outcome (Fd × ByteOrder × GotetraHeader) × RunStats :=
  match openFile fs file with
  | .error e => (.err e, ⟨0, 0⟩)
  | .ok f =>
    match readInt32 f .little with
    | .error e => (.err e, ⟨1, 0⟩)
    | .ok (flag, f) =>
      match endianness flag with
      | .panicked m => (.panicked m, ⟨1, 0⟩)
      | .err e => (.err e, ⟨1, 0⟩)
      | .ok order =>
        match readInt32 f order with
        | .error e => (.err e, ⟨1, 0⟩)
        | .ok (headerSize, f) =>
          if headerSize ≠ (rawGotetraHeaderSize : Int) then
            (.err (.formatError (sizeErrMsg headerSize)), ⟨1, 0⟩)
          else
            let f := f.seek (4 + 4)
            match f.readBytes rawGotetraHeaderSize with
            | .error e => (.err e, ⟨1, 0⟩)
            | .ok (hbytes, f) =>
              (.ok (f, order, (decodeRawGotetraHeader order hbytes).Postprocess),
               ⟨1, 0⟩)

/-- `ReadSheetHeaderAt`: the one-shot probe — decode the header, then
close the handle.  On a decode failure it returns the error without
closing (the handle opened by `readSheetHeaderAt` stays open). -/
def ReadSheetHeaderAt (fs : FS) (file : String) :
    Outcome GotetraHeader × RunStats :=
  match readSheetHeaderAt fs file with
  | (.err e, st) => (.err e, st)
  | (.panicked m, st) => (.panicked m, st)
  | (.ok (f, _, hd), st) =>
    match f.close with
    | .error e => (.err e, st)
    | .ok () => (.ok hd, ⟨st.handlesOpened, st.handlesClosed + 1⟩)

/-- The `FormatError` message for a vector-count mismatch
(`fmt.Errorf("Position buffer has length %d, but file %s has %d vectors.", ...)`). -/
def mismatchMsg (bufLen : Nat) (file : String) (gridCount : Int) : String :=
  "Position buffer has length " ++ toString bufLen ++ ", but file " ++ file ++
    " has " ++ toString gridCount ++ " vectors."

/-- `readSheetPositionsAt`: decode the header, validate `GridCount`
against the target length, re-seek defensively past the header, read the
payload into the target, close.  The source's `if err != nil { return
nil }` after the header decode is reproduced faithfully: a header-decode
error is swallowed and reported as success.  The returned list is the
target buffer's contents after the call. -/
def readSheetPositionsAt (fs : FS) (file : String) (xsBuf : List Vec3) :
    Outcome Unit × List Vec3 × RunStats :=
  match readSheetHeaderAt fs file with
  | (.panicked m, st) => (.panicked m, xsBuf, st)
  | (.err _, st) => (.ok (), xsBuf, st)
  | (.ok (f, order, h), st) =>
    if h.GridCount ≠ (xsBuf.length : Int) then
      (.err (.formatError (mismatchMsg xsBuf.length file h.GridCount)), xsBuf, st)
    else
      let f := f.seek (4 + 4 + rawGotetraHeaderSize)
      match readVecAsByte f order xsBuf.length with
      | .error e => (.err e, xsBuf, st)
      | .ok (xs, f) =>
        match f.close with
        | .error e => (.err e, xs, st)
        | .ok () => (.ok (), xs, ⟨st.handlesOpened, st.handlesClosed + 1⟩)

/-- `GotetraBuffer`: the reusable sub-grid buffer.  The Go field `open`
is a Lean keyword and is embedded as `openFlag`. -/
structure GotetraBuffer where
  openFlag : Bool
  sheet : List Vec3
  out : List Vec3
  sw : Int
  gw : Int
  hd : GotetraHeader
deriving DecidableEq

/-- `GotetraBuffer.IsOpen`. -/
def GotetraBuffer.IsOpen (buf : GotetraBuffer) : Bool := buf.openFlag

/-- Destination index `si = x + y*sw + z*sw*sw` of the extraction loop,
on a loop triple `(z, y, x)`. -/
def dstI (sw : Int) (t : Nat × Nat × Nat) : Int :=
  (t.2.2 : Int) + (t.2.1 : Int) * sw + (t.1 : Int) * sw * sw

/-- Source index `gi = x + y*gw + z*gw*gw` of the extraction loop, on a
loop triple `(z, y, x)`. -/
def srcI (gw : Int) (t : Nat × Nat × Nat) : Int :=
  (t.2.2 : Int) + (t.2.1 : Int) * gw + (t.1 : Int) * gw * gw

/-- One iteration `buf.out[si] = buf.sheet[gi]` of the extraction loop;
`none` models the index-out-of-range panic Go raises when either index
falls outside its slice. -/
def extractStep (sw gw : Int) (sheet out : List Vec3) (t : Nat × Nat × Nat) :
    Option (List Vec3) :=
  let si := dstI sw t
  let gi := srcI gw t
  if 0 ≤ gi ∧ gi < (sheet.length : Int) ∧ 0 ≤ si ∧ si < (out.length : Int) then
    some (out.set si.toNat (sheet.getD gi.toNat (0, 0, 0)))
  else none

/-- The extraction loop body run over a list of `(z, y, x)` triples. -/
def runExtract (sw gw : Int) (sheet : List Vec3) :
    List Vec3 → List (Nat × Nat × Nat) → Option (List Vec3)
  | out, [] => some out
  | out, t :: ts =>
    match extractStep sw gw sheet out t with
    | none => none
    | some out' => runExtract sw gw sheet out' ts

/-- The loop triples of `Read`'s nested `z`/`y`/`x` loops, in execution
order (z outermost, x innermost, each running `0 ≤ · < sw`). -/
def triples (sw : Nat) : List (Nat × Nat × Nat) :=
  (List.range sw).flatMap fun z =>
    (List.range sw).flatMap fun y =>
      (List.range sw).map fun x => (z, y, x)

/-- `GotetraBuffer.Read`: panics if the buffer is already open, marks it
open, fills `sheet` via `readSheetPositionsAt`, then gathers the corner
sub-cube into `out` and returns it.  The second component is the state
of the buffer when the call returns (or panics). -/
def GotetraBuffer.Read (buf : GotetraBuffer) (fs : FS) (fname : String) :
    Outcome (List Vec3) × GotetraBuffer :=
  if buf.openFlag then (.panicked "Buffer already open.", buf)
  else
    let buf := { buf with openFlag := true }
    match readSheetPositionsAt fs fname buf.sheet with
    | (.panicked m, sheet', _) => (.panicked m, { buf with sheet := sheet' })
    | (.err e, sheet', _) => (.err e, { buf with sheet := sheet' })
    | (.ok (), sheet', _) =>
      let buf := { buf with sheet := sheet' }
      match runExtract buf.sw buf.gw buf.sheet buf.out (triples buf.sw.toNat) with
      | none => (.panicked "runtime error: index out of range", buf)
      | some out' => (.ok out', { buf with out := out' })

/-- `GotetraBuffer.Close`: panics if already closed, else clears the
open flag (buffers are kept for reuse). -/
def GotetraBuffer.Close (buf : GotetraBuffer) : Outcome Unit × GotetraBuffer :=
  if !buf.openFlag then (.panicked "Buffer already closed.", buf)
  else (.ok (), { buf with openFlag := false })

/-- The zero value of `RawGotetraHeader` (Go's implicit zero struct). -/
def zeroRawGotetraHeader : RawGotetraHeader :=
  { Cosmo := ⟨List.replicate cosmologyHeaderSize 0⟩
    Count := 0, CountWidth := 0, SegmentWidth := 0, GridWidth := 0
    GridCount := 0, Idx := 0, Cells := 0, Mass := 0, TotalWidth := 0
    Origin := (0, 0, 0), Width := (0, 0, 0)
    VelocityOrigin := (0, 0, 0), VelocityWidth := (0, 0, 0) }

/-- The zero value of `GotetraHeader`. -/
def zeroGotetraHeader : GotetraHeader :=
  { toRawGotetraHeader := zeroRawGotetraHeader, N := 0, guard := () }

/-- `NewGotetraBuffer`: probe the header once, then allocate `sheet` of
length `gw³` and `out` of length `sw³`; `make` with a negative length
panics.  The `hd` field is left at its zero value, as in the source's
composite literal. -/
def NewGotetraBuffer (fs : FS) (fname : String) : Outcome GotetraBuffer :=
  match ReadSheetHeaderAt fs fname with
  | (.err e, _) => .err e
  | (.panicked m, _) => .panicked m
  | (.ok hd, _) =>
    let sw := hd.SegmentWidth
    let gw := hd.GridWidth
    if gw * gw * gw < 0 ∨ sw * sw * sw < 0 then
      .panicked "makeslice: len out of range"
    else
      .ok { openFlag := false
            sheet := List.replicate (gw * gw * gw).toNat (0, 0, 0)
            out := List.replicate (sw * sw * sw).toNat (0, 0, 0)
            sw := sw, gw := gw, hd := zeroGotetraHeader }

/-- `CellBounds`: integer cell-index bounding box. -/
structure CellBounds where
  Origin : Int × Int × Int
  Width : Int × Int × Int
deriving DecidableEq

/-- `GotetraHeader.CellBounds`: per axis, the first overlapped cell
index and the (inclusive-biased) number of overlapped cells, for a
uniform partition of the domain of side `TotalWidth` into `cells` cells
per axis.  The `j = 0,1,2` loop of the source is unrolled over the
triple components.  No validation of `cells` is performed, exactly as in
the source. -/
def GotetraHeader.CellBounds (hd : GotetraHeader) (cells : Int) : CellBounds :=
  let cellWidth : ℚ := hd.TotalWidth / (cells : ℚ)
  let o0 : Int := ⌊hd.Origin.1 / cellWidth⌋
  let o1 : Int := ⌊hd.Origin.2.1 / cellWidth⌋
  let o2 : Int := ⌊hd.Origin.2.2 / cellWidth⌋
  { Origin := (o0, o1, o2)
    Width := (1 + ⌊(hd.Origin.1 + hd.Width.1) / cellWidth⌋ - o0,
              1 + ⌊(hd.Origin.2.1 + hd.Width.2.1) / cellWidth⌋ - o1,
              1 + ⌊(hd.Origin.2.2 + hd.Width.2.2) / cellWidth⌋ - o2) }

/-- Modelled from the spec (§4.4 contract, for comparison with the
code's `CellBounds`): `cellWidth = totalWidth / cells`,
`originIdx_j = ⌊origin_j / cellWidth⌋`,
`farIdx_j = 1 + ⌊(origin_j + width_j) / cellWidth⌋`,
`widthIdx_j = farIdx_j - originIdx_j`. -/
def cellBoundsSpec (hd : GotetraHeader) (cells : Int) : CellBounds :=
  let cellWidth : ℚ := hd.TotalWidth / (cells : ℚ)
  let originIdx : Fin 3 → Int := fun j =>
    ⌊(if j = 0 then hd.Origin.1 else if j = 1 then hd.Origin.2.1 else hd.Origin.2.2) / cellWidth⌋
  let farIdx : Fin 3 → Int := fun j =>
    1 + ⌊((if j = 0 then hd.Origin.1 else if j = 1 then hd.Origin.2.1 else hd.Origin.2.2) +
          (if j = 0 then hd.Width.1 else if j = 1 then hd.Width.2.1 else hd.Width.2.2)) / cellWidth⌋
  { Origin := (originIdx 0, originIdx 1, originIdx 2)
    Width := (farIdx 0 - originIdx 0, farIdx 1 - originIdx 1, farIdx 2 - originIdx 2) }

/-! Concrete inputs used by witnesses and counterexamples. -/

/-- Little-endian 4-byte encoding of a word below `2^32`. -/
def le32n (w : Nat) : List Nat :=
  [w % 256, w / 256 % 256, w / 65536 % 256, w / 16777216 % 256]

/-- Little-endian 8-byte encoding of a word below `2^64`. -/
def le64n (w : Nat) : List Nat :=
  [w % 256, w / 256 % 256, w / 65536 % 256, w / 16777216 % 256,
   w / 4294967296 % 256, w / 1099511627776 % 256,
   w / 281474976710656 % 256, w / 72057594037927936 % 256]

/-- A 152-byte little-endian header block with the given `SegmentWidth`,
`GridWidth` and `GridCount` and every other field zero. -/
def headerBlockBytes (segW gridW gridC : Nat) : List Nat :=
  List.replicate 32 0 ++ le64n 0 ++ le64n 0 ++ le64n segW ++ le64n gridW ++
    le64n gridC ++ le64n 0 ++ le64n 0 ++ List.replicate 64 0

/-- A valid little-endian sheet file: `SegmentWidth = 2`, `GridWidth = 4`,
64 payload vectors, vector `i` being `(i, 0, 0)`. -/
def f1bytes : List Nat :=
  le32n 0 ++ le32n 152 ++ headerBlockBytes 2 4 64 ++
    (List.range 64).flatMap (fun i => le32n i ++ [0, 0, 0, 0, 0, 0, 0, 0])

/-- File system serving `f1bytes` at every path. -/
def fs1 : FS := fun _ => some f1bytes

/-- A closed buffer as `NewGotetraBuffer` would build it for `f1bytes`. -/
def buf1 : GotetraBuffer :=
  { openFlag := false, sheet := List.replicate 64 (0, 0, 0),
    out := List.replicate 8 (0, 0, 0), sw := 2, gw := 4,
    hd := zeroGotetraHeader }

/-- The 4×4×4 grid whose vector `i` is `(i, 0, 0)`. -/
def sheet1 : List Vec3 := (List.range 64).map fun i => ((i : Nat), 0, 0)

/-- The corner 2×2×2 sub-cube of `sheet1`. -/
def out1 : List Vec3 :=
  [(0, 0, 0), (1, 0, 0), (4, 0, 0), (5, 0, 0),
   (16, 0, 0), (17, 0, 0), (20, 0, 0), (21, 0, 0)]

/-- The buffer state after a successful `Read` of `f1bytes` into `buf1`. -/
def buf1out : GotetraBuffer :=
  { buf1 with openFlag := true, sheet := sheet1, out := out1 }

/-- A file whose header declares `GridCount = 2` over a `GridWidth = 1`
grid (one stored vector). -/
def f2bytes : List Nat :=
  le32n 0 ++ le32n 152 ++ headerBlockBytes 1 1 2 ++ List.replicate 12 0

/-- File system serving `f2bytes`. -/
def fs2 : FS := fun _ => some f2bytes

/-- A closed one-vector buffer (so `f2bytes`' count check fails). -/
def buf2 : GotetraBuffer :=
  { openFlag := false, sheet := [(9, 9, 9)], out := [(8, 8, 8)], sw := 1, gw := 1,
    hd := zeroGotetraHeader }

/-- File system with no files: every open fails. -/
def fsAbsent : FS := fun _ => none

/-- A file whose declared header size is 151 instead of 152. -/
def f5bytes : List Nat := le32n 0 ++ le32n 151 ++ List.replicate 160 0

/-- File system serving `f5bytes`. -/
def fs5 : FS := fun _ => some f5bytes

/-- A header with `TotalWidth = 100`, `Origin = (5,5,5)`,
`Width = (12,12,12)` (the §8 cell-bounds example). -/
def hd7 : GotetraHeader :=
  { zeroGotetraHeader with
      toRawGotetraHeader :=
        { zeroRawGotetraHeader with
            TotalWidth := 100, Origin := (5, 5, 5), Width := (12, 12, 12) } }

/-! Helper lemmas about the extraction loop. -/


theorem range_flatMap_mul (a b : Nat) :
    (List.range a).flatMap (fun i => (List.range b).map fun j => j + i * b) =
      List.range (a * b) := by
  induction a with
  | zero => simp
  | succ n ih =>
    rw [List.range_succ, List.flatMap_append, ih, Nat.succ_mul, List.range_add]
    simp [Nat.add_comm]

theorem map_dst_triples (n : Nat) :
    (triples n).map (fun t => t.2.2 + t.2.1 * n + t.1 * n * n) =
      List.range (n * n * n) := by
  unfold triples
  rw [List.map_flatMap]
  have step1 : (fun z => ((List.range n).flatMap fun y =>
          (List.range n).map fun x => (z, y, x)).map
        (fun t : Nat × Nat × Nat => t.2.2 + t.2.1 * n + t.1 * n * n)) =
      (fun z => (List.range (n * n)).map fun k => k + z * (n * n)) := by
    funext z
    rw [List.map_flatMap]
    have h1 : (fun y => (((List.range n).map fun x => (z, y, x)).map
          (fun t : Nat × Nat × Nat => t.2.2 + t.2.1 * n + t.1 * n * n))) =
        (fun y => (((List.range n).map fun x => x + y * n).map
          fun k => k + z * (n * n))) := by
      funext y
      rw [List.map_map, List.map_map]
      apply List.map_congr_left
      intro x _
      simp [Nat.mul_assoc, Nat.add_assoc]
    rw [h1, ← List.map_flatMap, range_flatMap_mul]
  rw [step1, range_flatMap_mul, ← Nat.mul_assoc]

theorem mem_triples {n : Nat} {t : Nat × Nat × Nat} :
    t ∈ triples n ↔ t.1 < n ∧ t.2.1 < n ∧ t.2.2 < n := by
  obtain ⟨z, y, x⟩ := t
  simp only [triples, List.mem_flatMap, List.mem_map, List.mem_range]
  aesop

theorem dstI_natCast (n : Nat) (t : Nat × Nat × Nat) :
    dstI (n : Int) t = ((t.2.2 + t.2.1 * n + t.1 * n * n : Nat) : Int) := by
  simp only [dstI]; push_cast; ring

theorem srcI_natCast (n : Nat) (t : Nat × Nat × Nat) :
    srcI (n : Int) t = ((t.2.2 + t.2.1 * n + t.1 * n * n : Nat) : Int) := by
  simp only [srcI]; push_cast; ring

theorem triples_pairwise_dst (n : Nat) :
    (triples n).Pairwise fun a b => dstI (n : Int) a ≠ dstI (n : Int) b := by
  have hnd : ((triples n).map (fun t => t.2.2 + t.2.1 * n + t.1 * n * n)).Nodup := by
    rw [map_dst_triples]; exact List.nodup_range _
  rw [List.Nodup, List.pairwise_map] at hnd
  apply hnd.imp
  intro a b hab
  rw [dstI_natCast, dstI_natCast]
  exact fun h => hab (Int.natCast_inj.mp h)

theorem extractStep_some_inv {sw gw : Int} {sheet out out1 : List Vec3}
    {t : Nat × Nat × Nat} (hs : extractStep sw gw sheet out t = some out1) :
    (0 ≤ srcI gw t ∧ srcI gw t < (sheet.length : Int) ∧
      0 ≤ dstI sw t ∧ dstI sw t < (out.length : Int)) ∧
    out1 = out.set (dstI sw t).toNat (sheet.getD (srcI gw t).toNat (0, 0, 0)) := by
  simp only [extractStep] at hs
  split at hs
  case isTrue hb => exact ⟨hb, by cases hs; rfl⟩
  case isFalse => cases hs

theorem runExtract_length {sw gw : Int} {sheet : List Vec3} :
    ∀ {ts : List (Nat × Nat × Nat)} {out out' : List Vec3},
      runExtract sw gw sheet out ts = some out' → out'.length = out.length := by
  intro ts
  induction ts with
  | nil => intro out out' h; cases h; rfl
  | cons t ts ih =>
    intro out out' h
    unfold runExtract at h
    rcases hs : extractStep sw gw sheet out t with _ | out1
    · rw [hs] at h; exact Option.noConfusion h
    · rw [hs] at h
      obtain ⟨_, rfl⟩ := extractStep_some_inv hs
      rw [ih h, List.length_set]

theorem runExtract_frame {sw gw : Int} {sheet : List Vec3} :
    ∀ {ts : List (Nat × Nat × Nat)} {out out' : List Vec3},
      runExtract sw gw sheet out ts = some out' →
      ∀ i : Nat, (∀ t ∈ ts, dstI sw t ≠ (i : Int)) → out'[i]? = out[i]? := by
  intro ts
  induction ts with
  | nil => intro out out' h i _; cases h; rfl
  | cons t ts ih =>
    intro out out' h i hni
    unfold runExtract at h
    rcases hs : extractStep sw gw sheet out t with _ | out1
    · rw [hs] at h; exact Option.noConfusion h
    · rw [hs] at h
      obtain ⟨hb, rfl⟩ := extractStep_some_inv hs
      rw [ih h i (fun t' ht' => hni t' (List.mem_cons_of_mem _ ht'))]
      apply List.getElem?_set_ne
      intro hEq
      have h0 := hb.2.2.1
      exact hni t (List.mem_cons_self ..) (by omega)

theorem runExtract_writes {sw gw : Int} {sheet : List Vec3} :
    ∀ {ts : List (Nat × Nat × Nat)} {out out' : List Vec3},
      ts.Pairwise (fun a b => dstI sw a ≠ dstI sw b) →
      runExtract sw gw sheet out ts = some out' →
      ∀ t ∈ ts, 0 ≤ dstI sw t ∧ 0 ≤ srcI gw t ∧
        out'[(dstI sw t).toNat]? = sheet[(srcI gw t).toNat]? := by
  intro ts
  induction ts with
  | nil => intro out out' _ _ t ht; cases ht
  | cons t0 ts ih =>
    intro out out' hp h t ht
    unfold runExtract at h
    rcases hs : extractStep sw gw sheet out t0 with _ | out1
    · rw [hs] at h; exact Option.noConfusion h
    · rw [hs] at h
      obtain ⟨hb, hout1⟩ := extractStep_some_inv hs
      rcases List.mem_cons.mp ht with rfl | hmem
      · refine ⟨hb.2.2.1, hb.1, ?_⟩
        have hframe : out'[(dstI sw t).toNat]? = out1[(dstI sw t).toNat]? := by
          apply runExtract_frame h
          intro t' ht' hEq
          have h0 := hb.2.2.1
          exact (List.pairwise_cons.mp hp).1 t' ht' (by omega)
        have hwrite : out1[(dstI sw t).toNat]? =
            some (sheet.getD (srcI gw t).toNat (0, 0, 0)) := by
          rw [hout1]
          apply List.getElem?_set_self
          have h1 := hb.2.2.2
          omega
        have hlt : (srcI gw t).toNat < sheet.length := by
          have h1 := hb.1; have h2 := hb.2.1; omega
        rw [hframe, hwrite, List.getD_eq_getElem?_getD,
          List.getElem?_eq_getElem hlt]
        rfl
      · exact ih (List.pairwise_cons.mp hp).2 h t hmem

theorem runExtract_isSome {sw gw : Int} {sheet : List Vec3} :
    ∀ {ts : List (Nat × Nat × Nat)} (out : List Vec3),
      (∀ t ∈ ts, 0 ≤ srcI gw t ∧ srcI gw t < (sheet.length : Int) ∧
        0 ≤ dstI sw t ∧ dstI sw t < (out.length : Int)) →
      ∃ out', runExtract sw gw sheet out ts = some out' := by
  intro ts
  induction ts with
  | nil => intro out _; exact ⟨out, rfl⟩
  | cons t ts ih =>
    intro out hb
    have hstep : extractStep sw gw sheet out t =
        some (out.set (dstI sw t).toNat (sheet.getD (srcI gw t).toNat (0, 0, 0))) := by
      simp only [extractStep]
      rw [if_pos (hb t (List.mem_cons_self ..))]
    obtain ⟨out', hout'⟩ := ih (out.set (dstI sw t).toNat
        (sheet.getD (srcI gw t).toNat (0, 0, 0)))
      (fun t' ht' => by
        rw [List.length_set]
        exact hb t' (List.mem_cons_of_mem _ ht'))
    exact ⟨out', by unfold runExtract; rw [hstep]; exact hout'⟩

theorem runExtract_some_bounds {sw gw : Int} {sheet : List Vec3} :
    ∀ {ts : List (Nat × Nat × Nat)} {out out' : List Vec3},
      runExtract sw gw sheet out ts = some out' →
      ∀ t ∈ ts, 0 ≤ srcI gw t ∧ srcI gw t < (sheet.length : Int) ∧
        0 ≤ dstI sw t ∧ dstI sw t < (out.length : Int) := by
  intro ts
  induction ts with
  | nil => intro out out' _ t ht; cases ht
  | cons t0 ts ih =>
    intro out out' h t ht
    unfold runExtract at h
    rcases hs : extractStep sw gw sheet out t0 with _ | out1
    · rw [hs] at h; exact Option.noConfusion h
    · rw [hs] at h
      obtain ⟨hb0, hout1⟩ := extractStep_some_inv hs
      rcases List.mem_cons.mp ht with rfl | hmem
      · exact hb0
      · have := ih h t hmem
        rw [hout1, List.length_set] at this
        exact this

/-! Helper lemmas about the readers (forward characterizations). -/


theorem rspa_header_err {fs : FS} {p : String} {e : Err} {st : RunStats}
    (xs : List Vec3) (hh : readSheetHeaderAt fs p = (.err e, st)) :
    readSheetPositionsAt fs p xs = (.ok (), xs, st) := by
  unfold readSheetPositionsAt; rw [hh]

theorem rspa_header_panic {fs : FS} {p : String} {m : String} {st : RunStats}
    (xs : List Vec3) (hh : readSheetHeaderAt fs p = (.panicked m, st)) :
    readSheetPositionsAt fs p xs = (.panicked m, xs, st) := by
  unfold readSheetPositionsAt; rw [hh]

theorem rspa_mismatch {fs : FS} {p : String} {f : Fd} {order : ByteOrder}
    {hd : GotetraHeader} {st : RunStats} {xs : List Vec3}
    (hh : readSheetHeaderAt fs p = (.ok (f, order, hd), st))
    (hgc : hd.GridCount ≠ (xs.length : Int)) :
    readSheetPositionsAt fs p xs =
      (.err (.formatError (mismatchMsg xs.length p hd.GridCount)), xs, st) := by
  unfold readSheetPositionsAt; rw [hh]; dsimp only; rw [if_pos hgc]

theorem rspa_vec_err {fs : FS} {p : String} {f : Fd} {order : ByteOrder}
    {hd : GotetraHeader} {st : RunStats} {xs : List Vec3} {e : Err}
    (hh : readSheetHeaderAt fs p = (.ok (f, order, hd), st))
    (hgc : ¬hd.GridCount ≠ (xs.length : Int))
    (hv : readVecAsByte (f.seek (4 + 4 + rawGotetraHeaderSize)) order xs.length =
      .error e) :
    readSheetPositionsAt fs p xs = (.err e, xs, st) := by
  unfold readSheetPositionsAt; rw [hh]; dsimp only; rw [if_neg hgc]; rw [hv]

theorem rspa_ok {fs : FS} {p : String} {f f' : Fd} {order : ByteOrder}
    {hd : GotetraHeader} {st : RunStats} {xs vecs : List Vec3}
    (hh : readSheetHeaderAt fs p = (.ok (f, order, hd), st))
    (hgc : ¬hd.GridCount ≠ (xs.length : Int))
    (hv : readVecAsByte (f.seek (4 + 4 + rawGotetraHeaderSize)) order xs.length =
      .ok (vecs, f')) :
    readSheetPositionsAt fs p xs =
      (.ok (), vecs, ⟨st.handlesOpened, st.handlesClosed + 1⟩) := by
  unfold readSheetPositionsAt; rw [hh]; dsimp only; rw [if_neg hgc]; rw [hv]; rfl

theorem Read_eq_ok {buf : GotetraBuffer} {fs : FS} {p : String}
    {sheet' out' : List Vec3} {st : RunStats}
    (hopen : buf.openFlag = false)
    (hps : readSheetPositionsAt fs p buf.sheet = (.ok (), sheet', st))
    (hre : runExtract buf.sw buf.gw sheet' buf.out (triples buf.sw.toNat) =
      some out') :
    buf.Read fs p =
      (.ok out', { buf with openFlag := true, sheet := sheet', out := out' }) := by
  unfold GotetraBuffer.Read
  rw [if_neg (by simp [hopen])]
  dsimp only
  rw [hps]
  dsimp only
  rw [hre]

theorem Read_eq_err {buf : GotetraBuffer} {fs : FS} {p : String}
    {sheet' : List Vec3} {st : RunStats} {e : Err}
    (hopen : buf.openFlag = false)
    (hps : readSheetPositionsAt fs p buf.sheet = (.err e, sheet', st)) :
    buf.Read fs p = (.err e, { buf with openFlag := true, sheet := sheet' }) := by
  unfold GotetraBuffer.Read
  rw [if_neg (by simp [hopen])]
  dsimp only
  rw [hps]

/-- inversion of a successful `Read`. -/
theorem Read_ok_inv {buf : GotetraBuffer} {fs : FS} {p : String}
    {v : List Vec3} {buf' : GotetraBuffer}
    (h : buf.Read fs p = (.ok v, buf')) :
    buf.openFlag = false ∧
    buf' = { buf with openFlag := true, sheet := buf'.sheet, out := buf'.out } ∧
    (readSheetPositionsAt fs p buf.sheet).1 = .ok () ∧
    (readSheetPositionsAt fs p buf.sheet).2.1 = buf'.sheet ∧
    runExtract buf.sw buf.gw buf'.sheet buf.out (triples buf.sw.toNat) =
      some buf'.out ∧
    v = buf'.out := by
  have hopen : buf.openFlag = false := by
    by_contra hc
    rw [Bool.not_eq_false] at hc
    unfold GotetraBuffer.Read at h
    rw [if_pos hc] at h
    exact Outcome.noConfusion (Prod.mk.inj h).1
  unfold GotetraBuffer.Read at h
  rw [if_neg (by simp [hopen])] at h
  dsimp only at h
  rcases hps : readSheetPositionsAt fs p buf.sheet with ⟨o, sheet', st⟩
  rw [hps] at h
  cases o with
  | panicked m => exact Outcome.noConfusion (Prod.mk.inj h).1
  | err e => exact Outcome.noConfusion (Prod.mk.inj h).1
  | ok u =>
    cases u
    simp only at h
    rcases hre : runExtract buf.sw buf.gw sheet' buf.out (triples buf.sw.toNat)
      with _ | out'
    · rw [hre] at h
      exact Outcome.noConfusion (Prod.mk.inj h).1
    · rw [hre] at h
      obtain ⟨h1, h2⟩ := Prod.mk.inj h
      cases h1
      cases h2
      exact ⟨hopen, rfl, rfl, rfl, hre, rfl⟩

theorem decodeVectors_length (order : ByteOrder) :
    ∀ (n : Nat) (bs : List Nat), (decodeVectors order n bs).length = n := by
  intro n
  induction n with
  | zero => intro bs; rfl
  | succ m ih => intro bs; simp [decodeVectors, ih]

theorem readVecAsByte_ok_length {f f' : Fd} {order : ByteOrder} {n : Nat}
    {vecs : List Vec3} (hv : readVecAsByte f order n = .ok (vecs, f')) :
    vecs.length = n := by
  unfold readVecAsByte at hv
  rcases hr : f.readBytes (12 * n) with e | ⟨bs, f''⟩
  · rw [hr] at hv; exact Except.noConfusion hv
  · rw [hr] at hv
    obtain ⟨h1, _⟩ := Prod.mk.inj (Except.ok.inj hv)
    rw [← h1, decodeVectors_length]

theorem readSheetPositionsAt_ok_length {fs : FS} {p : String} {xs : List Vec3}
    (h : (readSheetPositionsAt fs p xs).1 = .ok ()) :
    (readSheetPositionsAt fs p xs).2.1.length = xs.length := by
  rcases hh : readSheetHeaderAt fs p with ⟨o, st⟩
  cases o with
  | panicked m => rw [rspa_header_panic xs hh] at h; exact Outcome.noConfusion h
  | err e => rw [rspa_header_err xs hh]
  | ok fo =>
    rcases fo with ⟨f, order, hd⟩
    by_cases hgc : hd.GridCount ≠ (xs.length : Int)
    · rw [rspa_mismatch hh hgc] at h; exact Outcome.noConfusion h
    · rcases hv : readVecAsByte (f.seek (4 + 4 + rawGotetraHeaderSize)) order xs.length
        with e | ⟨vecs, f'⟩
      · rw [rspa_vec_err hh hgc hv] at h; exact Outcome.noConfusion h
      · rw [rspa_ok hh hgc hv]
        exact readVecAsByte_ok_length hv

theorem readSheetPositionsAt_congr_len (fs : FS) (p : String)
    (xs ys : List Vec3) (hlen : ys.length = xs.length) :
    (readSheetPositionsAt fs p ys).1 = (readSheetPositionsAt fs p xs).1 := by
  rcases hh : readSheetHeaderAt fs p with ⟨o, st⟩
  cases o with
  | panicked m => rw [rspa_header_panic xs hh, rspa_header_panic ys hh]
  | err e => rw [rspa_header_err xs hh, rspa_header_err ys hh]
  | ok fo =>
    rcases fo with ⟨f, order, hd⟩
    by_cases hgc : hd.GridCount ≠ (xs.length : Int)
    · have hgc2 : hd.GridCount ≠ (ys.length : Int) := by rw [hlen]; exact hgc
      rw [rspa_mismatch hh hgc, rspa_mismatch hh hgc2, hlen]
    · have hgc2 : ¬hd.GridCount ≠ (ys.length : Int) := by rw [hlen]; exact hgc
      rcases hv : readVecAsByte (f.seek (4 + 4 + rawGotetraHeaderSize)) order xs.length
        with e | ⟨vecs, f'⟩
      · have hv2 : readVecAsByte (f.seek (4 + 4 + rawGotetraHeaderSize)) order ys.length =
            .error e := by rw [hlen]; exact hv
        rw [rspa_vec_err hh hgc hv, rspa_vec_err hh hgc2 hv2]
      · have hv2 : readVecAsByte (f.seek (4 + 4 + rawGotetraHeaderSize)) order ys.length =
            .ok (vecs, f') := by rw [hlen]; exact hv
        rw [rspa_ok hh hgc hv, rspa_ok hh hgc2 hv2]

/-! Header-codec and index-arithmetic helper lemmas. -/


theorem rsha_wrong_size {fs : FS} {p : String} {bs : List Nat} {ord : ByteOrder}
    (hbs : fs p = some bs) (hlen : 8 ≤ bs.length)
    (hord : endianness (decodeInt32 .little (bs.take 4)) = .ok ord)
    (hsz : decodeInt32 ord ((bs.drop 4).take 4) ≠ (rawGotetraHeaderSize : Int)) :
    readSheetHeaderAt fs p =
      (.err (.formatError (sizeErrMsg (decodeInt32 ord ((bs.drop 4).take 4)))),
       ⟨1, 0⟩) := by
  unfold readSheetHeaderAt openFile
  rw [hbs]
  dsimp only
  have hr1 : Fd.readBytes ⟨bs, 0⟩ 4 = .ok (bs.take 4, ⟨bs, 4⟩) := by
    unfold Fd.readBytes
    rw [if_pos (by simpa using by omega)]
    simp
  unfold readInt32
  rw [hr1]
  dsimp only
  rw [hord]
  dsimp only
  have hr2 : Fd.readBytes ⟨bs, 4⟩ 4 = .ok ((bs.drop 4).take 4, ⟨bs, 8⟩) := by
    unfold Fd.readBytes
    rw [if_pos (by simpa using by omega)]
  rw [hr2]
  dsimp only
  rw [if_pos hsz]

-- flag symmetry (C6 part)

theorem flag_sym_core (a b c d : Nat) (ha : a < 256) (hb : b < 256)
    (hc : c < 256) (hd : d < 256) :
    endianness (toSigned32 (a + 256 * (b + 256 * (c + 256 * (d + 256 * 0))))) =
      endianness (toSigned32 (d + 256 * (c + 256 * (b + 256 * (a + 256 * 0))))) := by
  have k0 : (toSigned32 (a + 256 * (b + 256 * (c + 256 * (d + 256 * 0)))) = 0 ↔
      toSigned32 (d + 256 * (c + 256 * (b + 256 * (a + 256 * 0)))) = 0) := by
    unfold toSigned32
    split_ifs <;> constructor <;> intro h <;> first | exact h.elim | omega
  have k1 : (toSigned32 (a + 256 * (b + 256 * (c + 256 * (d + 256 * 0)))) = -1 ↔
      toSigned32 (d + 256 * (c + 256 * (b + 256 * (a + 256 * 0)))) = -1) := by
    unfold toSigned32
    split_ifs <;> constructor <;> intro h <;> first | exact h.elim | omega
  unfold endianness
  split_ifs <;> simp_all

theorem flag_read_symmetric (b0 b1 b2 b3 : Nat) :
    endianness (decodeInt32 .little [b0, b1, b2, b3]) =
      endianness (decodeInt32 .big [b0, b1, b2, b3]) := by
  simp only [decodeInt32, decodeWord, List.reverse_cons, List.reverse_nil,
    List.nil_append, List.cons_append, List.singleton_append, wordOfBytesLE]
  exact flag_sym_core (b0 % 256) (b1 % 256) (b2 % 256) (b3 % 256)
    (Nat.mod_lt _ (by norm_num)) (Nat.mod_lt _ (by norm_num))
    (Nat.mod_lt _ (by norm_num)) (Nat.mod_lt _ (by norm_num))

-- cube bound (C4 part)

theorem idx_lt_cube {w : Int} {x y z : Nat}
    (hx : (x : Int) < w) (hy : (y : Int) < w) (hz : (z : Int) < w) :
    0 ≤ (x : Int) + (y : Int) * w + (z : Int) * w * w ∧
      (x : Int) + (y : Int) * w + (z : Int) * w * w < w * w * w := by
  have hx0 : (0 : Int) ≤ (x : Int) := Int.natCast_nonneg x
  have hy0 : (0 : Int) ≤ (y : Int) := Int.natCast_nonneg y
  have hz0 : (0 : Int) ≤ (z : Int) := Int.natCast_nonneg z
  have hw : (0 : Int) < w := lt_of_le_of_lt hx0 hx
  constructor
  · positivity
  · nlinarith [mul_le_mul_of_nonneg_right (show (y : Int) ≤ w - 1 by omega) hw.le,
      mul_le_mul_of_nonneg_right
        (mul_le_mul_of_nonneg_right (show (z : Int) ≤ w - 1 by omega) hw.le) hw.le]

set_option maxRecDepth 1000000

/-! Claim theorems, witnesses and counterexamples. -/


-- C1 (code_bug)

/-- C1: the claim fails on the code.  When the header decode fails (here:
the open fails because the file is absent), `readSheetPositionsAt`
returns success — the source's `if err != nil { return nil }` — with the
target array unfilled and no handle either opened or closed. -/
theorem C1_readSheetPositionsAt_swallows_header_failure :
    readSheetPositionsAt fsAbsent "x" [(7, 7, 7)] =
      (.ok (), [(7, 7, 7)], ⟨0, 0⟩) := by decide

-- C2 (corrected): amended theorem + counterexample

/-- C2 (amended): if `Read` fails with an error, the buffer is left Open
(`IsOpen` afterwards returns `true`): the open flag is set before the
payload read and is not rolled back on failure. -/
theorem C2_failed_Read_leaves_buffer_open :
    ∀ (fs : FS) (p : String) (buf : GotetraBuffer) (e : Err)
      (buf' : GotetraBuffer),
      buf.Read fs p = (.err e, buf') → buf'.IsOpen = true := by
  intro fs p buf e buf' h
  unfold GotetraBuffer.Read at h
  split at h
  · exact Outcome.noConfusion (Prod.mk.inj h).1
  · dsimp only at h
    rcases hps : readSheetPositionsAt fs p buf.sheet with ⟨o, sheet', st⟩
    rw [hps] at h
    cases o with
    | panicked m => exact Outcome.noConfusion (Prod.mk.inj h).1
    | err e2 =>
      obtain ⟨h1, h2⟩ := Prod.mk.inj h
      cases h2
      rfl
    | ok u =>
      cases u
      simp only at h
      rcases hre : runExtract buf.sw buf.gw sheet' buf.out (triples buf.sw.toNat)
        with _ | out'
      · rw [hre] at h; exact Outcome.noConfusion (Prod.mk.inj h).1
      · rw [hre] at h; exact Outcome.noConfusion (Prod.mk.inj h).1

/-- C2 (counterexample): a `Read` of a file whose `GridCount` (2) does
not match the buffer (1 vector) fails with a `FormatError`, and the
buffer is left Open, not Closed as the claim states. -/
theorem C2_cex_failed_Read_is_open :
    (buf2.Read fs2 "p").1 =
      .err (.formatError
        "Position buffer has length 1, but file p has 2 vectors.") ∧
    (buf2.Read fs2 "p").2.IsOpen = true := by decide

/-- C2 (witness for the amended theorem at a concrete failing input). -/
theorem C2_witness :
    buf2.Read fs2 "p" =
      (.err (.formatError
        "Position buffer has length 1, but file p has 2 vectors."),
       { buf2 with openFlag := true }) ∧
    ({ buf2 with openFlag := true } : GotetraBuffer).IsOpen = true :=
  ⟨by decide,
   C2_failed_Read_leaves_buffer_open fs2 "p" buf2
     (.formatError "Position buffer has length 1, but file p has 2 vectors.")
     { buf2 with openFlag := true } (by decide)⟩


/-- C3: after a successful `Read` on a buffer with non-negative cached
widths, `out[x + y·sw + z·sw²] = sheet[x + y·gw + z·gw²]` for all
`x, y, z < sw` — the corner sub-cube gather; and on the synthetic
4×4×4 grid with vector `i = (i,0,0)` and `sw = 2` the loop yields
`out = [(0,0,0), (1,0,0), (4,0,0), (5,0,0), (16,0,0), (17,0,0),
(20,0,0), (21,0,0)]` — a corner sub-cube, not a strided sample. -/
theorem C3_Read_extracts_corner_subcube :
    (∀ (fs : FS) (p : String) (buf : GotetraBuffer) (v : List Vec3)
        (buf' : GotetraBuffer), 0 ≤ buf.sw → 0 ≤ buf.gw →
      buf.Read fs p = (.ok v, buf') →
      ∀ x y z : Nat, x < buf.sw.toNat → y < buf.sw.toNat → z < buf.sw.toNat →
        buf'.out[x + y * buf.sw.toNat + z * buf.sw.toNat * buf.sw.toNat]? =
          buf'.sheet[x + y * buf.gw.toNat + z * buf.gw.toNat * buf.gw.toNat]?) ∧
    runExtract 2 4 sheet1 (List.replicate 8 (0, 0, 0)) (triples 2) = some out1 := by
  constructor
  · intro fs p buf v buf' hsw hgw h x y z hx hy hz
    obtain ⟨-, -, -, -, hre, -⟩ := Read_ok_inv h
    have hmem : (z, y, x) ∈ triples buf.sw.toNat := mem_triples.mpr ⟨hz, hy, hx⟩
    have hpair := triples_pairwise_dst buf.sw.toNat
    rw [Int.toNat_of_nonneg hsw] at hpair
    obtain ⟨hd0, hs0, hw⟩ := runExtract_writes hpair hre (z, y, x) hmem
    have hdst : (dstI buf.sw (z, y, x)).toNat =
        x + y * buf.sw.toNat + z * buf.sw.toNat * buf.sw.toNat := by
      conv_lhs => rw [(Int.toNat_of_nonneg hsw).symm, dstI_natCast]
      exact Int.toNat_natCast _
    have hsrc : (srcI buf.gw (z, y, x)).toNat =
        x + y * buf.gw.toNat + z * buf.gw.toNat * buf.gw.toNat := by
      conv_lhs => rw [(Int.toNat_of_nonneg hgw).symm, srcI_natCast]
      exact Int.toNat_natCast _
    rw [hdst, hsrc] at hw
    exact hw
  · decide

/-- C3 (witness): the general mapping applied to the concrete file
`f1bytes` at `(x, y, z) = (0, 1, 0)`: `out[2] = sheet[4]`. -/
theorem C3_witness :
    buf1.Read fs1 "a" = (.ok out1, buf1out) ∧
    buf1out.out[2]? = buf1out.sheet[4]? := by
  have hr : buf1.Read fs1 "a" = (.ok out1, buf1out) := by decide
  refine ⟨hr, ?_⟩
  have h := C3_Read_extracts_corner_subcube.1 fs1 "a" buf1 out1 buf1out
    (by decide) (by decide) hr 0 1 0 (by decide) (by decide) (by decide)
  have e1 : 0 + 1 * buf1.sw.toNat + 0 * buf1.sw.toNat * buf1.sw.toNat = 2 := by decide
  have e2 : 0 + 1 * buf1.gw.toNat + 0 * buf1.gw.toNat * buf1.gw.toNat = 4 := by decide
  rw [e1, e2] at h
  exact h

/-- C4: with `sw ≤ gw`, every index the extraction loop computes is in
bounds — the source index is in `[0, gw³)` and the destination index in
`[0, sw³)` — and on arrays of exactly those lengths the whole loop runs
without any out-of-range access. -/
theorem C4_extraction_indices_in_bounds :
    (∀ (sw gw : Int) (t : Nat × Nat × Nat), t ∈ triples sw.toNat → sw ≤ gw →
      (0 ≤ srcI gw t ∧ srcI gw t < gw * gw * gw) ∧
      (0 ≤ dstI sw t ∧ dstI sw t < sw * sw * sw)) ∧
    (∀ (sw gw : Int) (sheet out : List Vec3), sw ≤ gw →
      (sheet.length : Int) = gw * gw * gw →
      (out.length : Int) = sw * sw * sw →
      ∃ out', runExtract sw gw sheet out (triples sw.toNat) = some out') := by
  have part1 : ∀ (sw gw : Int) (t : Nat × Nat × Nat), t ∈ triples sw.toNat →
      sw ≤ gw →
      (0 ≤ srcI gw t ∧ srcI gw t < gw * gw * gw) ∧
      (0 ≤ dstI sw t ∧ dstI sw t < sw * sw * sw) := by
    intro sw gw t hmem hle
    obtain ⟨z, y, x⟩ := t
    have hz : z < sw.toNat := (mem_triples.mp hmem).1
    have hy : y < sw.toNat := (mem_triples.mp hmem).2.1
    have hx : x < sw.toNat := (mem_triples.mp hmem).2.2
    have hswpos : 0 < sw.toNat := lt_of_le_of_lt (Nat.zero_le _) hx
    have hsw : (sw.toNat : Int) = sw := Int.toNat_of_nonneg (by omega)
    have hxs : (x : Int) < sw := by omega
    have hys : (y : Int) < sw := by omega
    have hzs : (z : Int) < sw := by omega
    constructor
    · have := idx_lt_cube (lt_of_lt_of_le hxs hle) (lt_of_lt_of_le hys hle)
        (lt_of_lt_of_le hzs hle)
      simpa [srcI] using this
    · have := idx_lt_cube hxs hys hzs
      simpa [dstI] using this
  refine ⟨part1, ?_⟩
  intro sw gw sheet out hle hsheet hout
  apply runExtract_isSome
  intro t hmem
  obtain ⟨⟨h1, h2⟩, h3, h4⟩ := part1 sw gw t hmem hle
  exact ⟨h1, by omega, h3, by omega⟩

/-- C4 (witness): the bounds at `sw = 2 ≤ gw = 4` for the loop triple
`(z,y,x) = (0,1,0)`, and loop totality on concrete 64- and 8-vector
arrays. -/
theorem C4_witness :
    (0 ≤ srcI 4 (0, 1, 0) ∧ srcI 4 (0, 1, 0) < 4 * 4 * 4) ∧
    (∃ out', runExtract 2 4 sheet1 (List.replicate 8 (0, 0, 0)) (triples 2) =
      some out') := by
  constructor
  · exact (C4_extraction_indices_in_bounds.1 2 4 (0, 1, 0) (by decide)
      (by decide)).1
  · exact C4_extraction_indices_in_bounds.2 2 4 sheet1
      (List.replicate 8 (0, 0, 0)) (by decide) (by decide) (by decide)


/-- C5: the claim fails on the code.  On the wrong-header-size
`FormatError` exit, both `ReadSheetHeaderAt` and `readSheetPositionsAt`
return with the descriptor they opened still open (`handlesOpened = 1`,
`handlesClosed = 0`) — the handle leaks; `readSheetPositionsAt`
additionally swallows the error. -/
theorem C5_handle_leak_on_size_mismatch :
    ReadSheetHeaderAt fs5 "x" =
      (.err (.formatError "Expected catalog.SheetHeader size of 152, found 151."),
       ⟨1, 0⟩) ∧
    readSheetPositionsAt fs5 "x" [] = (.ok (), [], ⟨1, 0⟩) := by decide

/-- C6 (amended): the header decoder maps flag `0` to little endian and
`-1` to big endian; every other flag makes it panic (a fatal abort with
message "Unrecognized endianness flag.") rather than return a
recoverable `FormatError`; and the flag classification is identical
whether the 4 flag bytes are read little or big endian. -/
theorem C6_endianness_flag_mapping :
    endianness 0 = .ok .little ∧
    endianness (-1) = .ok .big ∧
    (∀ flag : Int, flag ≠ 0 → flag ≠ -1 →
      endianness flag = .panicked "Unrecognized endianness flag.") ∧
    (∀ b0 b1 b2 b3 : Nat,
      endianness (decodeInt32 .little [b0, b1, b2, b3]) =
        endianness (decodeInt32 .big [b0, b1, b2, b3])) := by
  refine ⟨by decide, by decide, ?_, flag_read_symmetric⟩
  intro flag h0 h1
  unfold endianness
  rw [if_neg h0, if_neg h1]

/-- C6 (counterexample): flag `5` makes `endianness` panic; it does not
fail with a `FormatError` of any message, contrary to the claim. -/
theorem C6_cex_flag_panics_not_FormatError :
    endianness 5 = .panicked "Unrecognized endianness flag." ∧
    ∀ m : String, endianness 5 ≠ .err (.formatError m) := by
  constructor
  · decide
  · intro m h
    rw [show endianness 5 = .panicked "Unrecognized endianness flag." from by decide] at h
    exact Outcome.noConfusion h

/-- C6 (witness): the amended theorem applied at flag `7` and at the
flag bytes `[1,0,0,0]`. -/
theorem C6_witness :
    ((7 : Int) ≠ 0) ∧ ((7 : Int) ≠ -1) ∧
    endianness 7 = .panicked "Unrecognized endianness flag." ∧
    endianness (decodeInt32 .little [1, 0, 0, 0]) =
      endianness (decodeInt32 .big [1, 0, 0, 0]) :=
  ⟨by decide, by decide,
   C6_endianness_flag_mapping.2.2.1 7 (by decide) (by decide),
   C6_endianness_flag_mapping.2.2.2 1 0 0 0⟩

/-- C7 (counterexample): `CellBounds` does not reject `cells ≤ 0`: at
`cells = -1` (with `TotalWidth = 100`, `Origin = (5,5,5)`,
`Width = (12,12,12)`) it returns an ordinary result — its Go signature
(`*CellBounds`, no error) has no rejection path at all. -/
theorem C7_cex_no_rejection_for_nonpositive_cells :
    hd7.CellBounds (-1) = ⟨(-1, -1, -1), (1, 1, 1)⟩ := by
  unfold GotetraHeader.CellBounds
  norm_num [hd7, zeroGotetraHeader, zeroRawGotetraHeader]

/-- C7 (amended): for `cells > 0` the code's `CellBounds` computes
exactly the spec §4.4 formula (with float arithmetic idealised to exact
rationals). -/
theorem C7_CellBounds_matches_spec_formula :
    ∀ (hd : GotetraHeader) (cells : Int), 0 < cells →
      hd.CellBounds cells = cellBoundsSpec hd cells :=
  fun _ _ _ => rfl

/-- C7 (witness): the §8 example — `TotalWidth = 100`, `cells = 10`,
`Origin = (5,5,5)`, `Width = (12,12,12)` gives `originIdx = (0,0,0)`
and `widthIdx = (2,2,2)`. -/
theorem C7_witness :
    (0 : Int) < 10 ∧
    hd7.CellBounds 10 = cellBoundsSpec hd7 10 ∧
    hd7.CellBounds 10 = ⟨(0, 0, 0), (2, 2, 2)⟩ := by
  refine ⟨by decide, C7_CellBounds_matches_spec_formula hd7 10 (by decide), ?_⟩
  unfold GotetraHeader.CellBounds
  norm_num [hd7, zeroGotetraHeader, zeroRawGotetraHeader]

/-- C8: whenever the declared 4-byte header-size field (read in the
detected byte order) differs from the fixed `RawGotetraHeader` size, the
header decoder fails with a `FormatError` whose message carries both the
expected and the found size, before any header field is read. -/
theorem C8_wrong_header_size_is_FormatError :
    ∀ (fs : FS) (p : String) (bs : List Nat) (ord : ByteOrder),
      fs p = some bs → 8 ≤ bs.length →
      endianness (decodeInt32 .little (bs.take 4)) = .ok ord →
      decodeInt32 ord ((bs.drop 4).take 4) ≠ (rawGotetraHeaderSize : Int) →
      readSheetHeaderAt fs p =
        (.err (.formatError (sizeErrMsg (decodeInt32 ord ((bs.drop 4).take 4)))),
         ⟨1, 0⟩) ∧
      (ReadSheetHeaderAt fs p).1 =
        .err (.formatError (sizeErrMsg (decodeInt32 ord ((bs.drop 4).take 4)))) := by
  intro fs p bs ord hbs hlen hord hsz
  have h1 := rsha_wrong_size hbs hlen hord hsz
  refine ⟨h1, ?_⟩
  unfold ReadSheetHeaderAt
  rw [h1]

/-- C8 (witness): the size check applied to the concrete file `f5bytes`,
whose declared size is 151 instead of 152. -/
theorem C8_witness :
    fs5 "x" = some f5bytes ∧
    readSheetHeaderAt fs5 "x" =
      (.err (.formatError (sizeErrMsg 151)), ⟨1, 0⟩) := by
  have h := C8_wrong_header_size_is_FormatError fs5 "x" f5bytes .little rfl
    (by decide) (by decide) (by decide)
  have he : decodeInt32 .little ((f5bytes.drop 4).take 4) = 151 := by decide
  rw [he] at h
  exact ⟨rfl, h.1⟩


theorem readSheetPositionsAt_length_all (fs : FS) (p : String) (xs : List Vec3) :
    (readSheetPositionsAt fs p xs).2.1.length = xs.length := by
  rcases hh : readSheetHeaderAt fs p with ⟨o, st⟩
  cases o with
  | panicked m => rw [rspa_header_panic xs hh]
  | err e => rw [rspa_header_err xs hh]
  | ok fo =>
    rcases fo with ⟨f, order, hd⟩
    by_cases hgc : hd.GridCount ≠ (xs.length : Int)
    · rw [rspa_mismatch hh hgc]
    · rcases hv : readVecAsByte (f.seek (4 + 4 + rawGotetraHeaderSize)) order
        xs.length with e | ⟨vecs, f'⟩
      · rw [rspa_vec_err hh hgc hv]
      · rw [rspa_ok hh hgc hv]; exact readVecAsByte_ok_length hv

/-- C9: the buffer lifecycle — `Read` on an Open buffer panics and `Close`
on a Closed buffer panics (fatal, unrecoverable); a successful `Read`
moves Closed→Open and `Close` moves Open→Closed; and after a successful
`Read`, close-then-read on the same path succeeds again, reusing storage
of the same sizes. -/
theorem C9_buffer_lifecycle :
    (∀ (buf : GotetraBuffer) (fs : FS) (p : String), buf.IsOpen = true →
      buf.Read fs p = (.panicked "Buffer already open.", buf)) ∧
    (∀ buf : GotetraBuffer, buf.IsOpen = false →
      buf.Close = (.panicked "Buffer already closed.", buf)) ∧
    (∀ (buf : GotetraBuffer) (fs : FS) (p : String) (v : List Vec3)
        (buf' : GotetraBuffer),
      buf.Read fs p = (.ok v, buf') → buf'.IsOpen = true) ∧
    (∀ buf : GotetraBuffer, buf.IsOpen = true →
      buf.Close = (.ok (), { buf with openFlag := false })) ∧
    (∀ (buf : GotetraBuffer) (fs : FS) (p : String) (v : List Vec3)
        (buf' : GotetraBuffer),
      buf.Read fs p = (.ok v, buf') →
      buf'.Close.1 = .ok () ∧
      ∃ (v₂ : List Vec3) (buf₂ : GotetraBuffer),
        (buf'.Close.2).Read fs p = (.ok v₂, buf₂) ∧
        buf₂.sheet.length = buf'.sheet.length ∧
        buf₂.out.length = buf'.out.length) := by
  have part1 : ∀ (buf : GotetraBuffer) (fs : FS) (p : String),
      buf.IsOpen = true →
      buf.Read fs p = (.panicked "Buffer already open.", buf) := by
    intro buf fs p h
    simp only [GotetraBuffer.IsOpen] at h
    unfold GotetraBuffer.Read
    rw [if_pos h]
  have part2 : ∀ buf : GotetraBuffer, buf.IsOpen = false →
      buf.Close = (.panicked "Buffer already closed.", buf) := by
    intro buf h
    unfold GotetraBuffer.Close
    simp only [GotetraBuffer.IsOpen] at h
    rw [if_pos (by rw [h]; rfl)]
  have part3 : ∀ (buf : GotetraBuffer) (fs : FS) (p : String) (v : List Vec3)
      (buf' : GotetraBuffer),
      buf.Read fs p = (.ok v, buf') → buf'.IsOpen = true := by
    intro buf fs p v buf' h
    obtain ⟨-, hbuf', -⟩ := Read_ok_inv h
    rw [hbuf']
    rfl
  have part4 : ∀ buf : GotetraBuffer, buf.IsOpen = true →
      buf.Close = (.ok (), { buf with openFlag := false }) := by
    intro buf h
    simp only [GotetraBuffer.IsOpen] at h
    unfold GotetraBuffer.Close
    rw [if_neg (by rw [h]; simp)]
  refine ⟨part1, part2, part3, part4, ?_⟩
  intro buf fs p v buf' h
  obtain ⟨hopen, hbuf', hps1, hps2, hre, hv⟩ := Read_ok_inv h
  have hopen' : buf'.IsOpen = true := part3 buf fs p v buf' h
  have hclose := part4 buf' hopen'
  refine ⟨by rw [hclose], ?_⟩
  have hsw' : buf'.sw = buf.sw := by rw [hbuf']
  have hgw' : buf'.gw = buf.gw := by rw [hbuf']
  have hlen_sheet : buf'.sheet.length = buf.sheet.length := by
    rw [← hps2]; exact readSheetPositionsAt_ok_length hps1
  have hlen_out : buf'.out.length = buf.out.length := runExtract_length hre
  have hcongr := readSheetPositionsAt_congr_len fs p buf.sheet buf'.sheet
    hlen_sheet
  rw [hps1] at hcongr
  rcases hps' : readSheetPositionsAt fs p buf'.sheet with ⟨o₂, sheet₂, st₂⟩
  rw [hps'] at hcongr
  have ho₂ : o₂ = .ok () := hcongr
  subst ho₂
  have hlen₂ : sheet₂.length = buf'.sheet.length := by
    have hx := readSheetPositionsAt_length_all fs p buf'.sheet
    rw [hps'] at hx
    exact hx
  have hb := runExtract_some_bounds hre
  have hbounds : ∀ t ∈ triples buf.sw.toNat,
      0 ≤ srcI buf.gw t ∧ srcI buf.gw t < (sheet₂.length : Int) ∧
      0 ≤ dstI buf.sw t ∧ dstI buf.sw t < ((buf'.out).length : Int) := by
    intro t ht
    obtain ⟨hb1, hb2, hb3, hb4⟩ := hb t ht
    exact ⟨hb1, by rw [hlen₂]; exact hb2, hb3, by rw [hlen_out]; exact hb4⟩
  obtain ⟨out₂, hre₂⟩ :=
    @runExtract_isSome buf.sw buf.gw sheet₂ (triples buf.sw.toNat) buf'.out
      hbounds
  have hre₂' : runExtract buf'.sw buf'.gw sheet₂ buf'.out
      (triples buf'.sw.toNat) = some out₂ := by
    rw [hsw', hgw']; exact hre₂
  have hread₂ := @Read_eq_ok { buf' with openFlag := false } fs p sheet₂ out₂
    st₂ rfl hps' hre₂'
  refine ⟨out₂, ⟨true, sheet₂, out₂, buf'.sw, buf'.gw, buf'.hd⟩, ?_, ?_, ?_⟩
  · rw [hclose]
    exact hread₂
  · show sheet₂.length = buf'.sheet.length
    exact hlen₂
  · show out₂.length = buf'.out.length
    exact runExtract_length hre₂

/-- C9 (witness): the full lifecycle on the concrete file `f1bytes`:
double-read panics, close-when-closed panics, a successful read opens
the buffer, and close-then-read succeeds again with the same sizes. -/
theorem C9_witness :
    ({ buf1 with openFlag := true } : GotetraBuffer).Read fs1 "a" =
      (.panicked "Buffer already open.", { buf1 with openFlag := true }) ∧
    buf1.Close = (.panicked "Buffer already closed.", buf1) ∧
    buf1.Read fs1 "a" = (.ok out1, buf1out) ∧
    buf1out.IsOpen = true ∧
    buf1out.Close.1 = .ok () ∧
    ∃ (v₂ : List Vec3) (buf₂ : GotetraBuffer),
      (buf1out.Close.2).Read fs1 "a" = (.ok v₂, buf₂) ∧
      buf₂.sheet.length = buf1out.sheet.length ∧
      buf₂.out.length = buf1out.out.length := by
  have hr : buf1.Read fs1 "a" = (.ok out1, buf1out) := by decide
  have h5 := C9_buffer_lifecycle.2.2.2.2 buf1 fs1 "a" out1 buf1out hr
  exact ⟨C9_buffer_lifecycle.1 _ fs1 "a" (by decide),
    C9_buffer_lifecycle.2.1 buf1 (by decide), hr,
    C9_buffer_lifecycle.2.2.1 buf1 fs1 "a" out1 buf1out hr, h5.1, h5.2⟩

/-- C10: `Read` leaves the cached widths `sw`, `gw`, the stored header
`hd` and both array lengths unchanged on every path, and `Close` changes
nothing but the open flag — so the index mapping and the array sizes are
identical across repeated read/close cycles. -/
theorem C10_Read_Close_frame :
    ∀ (buf : GotetraBuffer) (fs : FS) (p : String),
      (buf.Read fs p).2.sw = buf.sw ∧
      (buf.Read fs p).2.gw = buf.gw ∧
      (buf.Read fs p).2.hd = buf.hd ∧
      (buf.Read fs p).2.sheet.length = buf.sheet.length ∧
      (buf.Read fs p).2.out.length = buf.out.length ∧
      buf.Close.2.sheet = buf.sheet ∧
      buf.Close.2.out = buf.out ∧
      buf.Close.2.sw = buf.sw ∧
      buf.Close.2.gw = buf.gw ∧
      buf.Close.2.hd = buf.hd := by
  intro buf fs p
  have hread : (buf.Read fs p).2.sw = buf.sw ∧
      (buf.Read fs p).2.gw = buf.gw ∧
      (buf.Read fs p).2.hd = buf.hd ∧
      (buf.Read fs p).2.sheet.length = buf.sheet.length ∧
      (buf.Read fs p).2.out.length = buf.out.length := by
    unfold GotetraBuffer.Read
    split
    · exact ⟨rfl, rfl, rfl, rfl, rfl⟩
    · dsimp only
      rcases hps : readSheetPositionsAt fs p buf.sheet with ⟨o, sheet', st⟩
      have hsl : sheet'.length = buf.sheet.length := by
        have hx := readSheetPositionsAt_length_all fs p buf.sheet
        rw [hps] at hx
        exact hx
      cases o with
      | panicked m => exact ⟨rfl, rfl, rfl, hsl, rfl⟩
      | err e => exact ⟨rfl, rfl, rfl, hsl, rfl⟩
      | ok u =>
        cases u
        dsimp only
        rcases hre : runExtract buf.sw buf.gw sheet' buf.out
          (triples buf.sw.toNat) with _ | out'
        · exact ⟨rfl, rfl, rfl, hsl, rfl⟩
        · exact ⟨rfl, rfl, rfl, hsl, runExtract_length hre⟩
  have hclose : buf.Close.2.sheet = buf.sheet ∧ buf.Close.2.out = buf.out ∧
      buf.Close.2.sw = buf.sw ∧ buf.Close.2.gw = buf.gw ∧
      buf.Close.2.hd = buf.hd := by
    unfold GotetraBuffer.Close
    split <;> exact ⟨rfl, rfl, rfl, rfl, rfl⟩
  exact ⟨hread.1, hread.2.1, hread.2.2.1, hread.2.2.2.1, hread.2.2.2.2,
    hclose.1, hclose.2.1, hclose.2.2.1, hclose.2.2.2.1, hclose.2.2.2.2⟩
